import Mathlib

/-
Verification of the HTML-to-structured-data extraction layer of the
winit-api repository (src/utils/parser.py and src/models/schemas.py),
as a shallow embedding in Lean 4.

Modelling conventions, stated once here:

- Python strings are modelled as List Char (abbreviated Str).  All string
  operations the source uses (strip, split, substring containment) are
  implemented below as executable structural recursions mirroring the
  Python semantics.  Char.isWhitespace models the whitespace class of
  Python str.strip.

- BeautifulSoup documents are modelled structurally: a td cell is its
  text content plus a flag recording whether the cell contains an anchor
  element (cell.find of an a-tag); a tr row is its role attribute plus
  its list of td cells; a table is an optional tbody holding rows; the
  named div regions of the detail page are optional components of a
  DetailDoc record.  get_text with strip=True is modelled as pytrim of
  the stored text (a cell is abstracted to one text node, so
  get_text with separator also yields the trimmed text).

- datetime.strptime with the four formats of _normalize_date is modelled
  by matchMDY / matchYMD below: a format field d{1,2} matches a maximal
  run of one or two digits followed by the literal separator (regex
  backtracking collapses to this because the separator is not a digit),
  the year field d{4} matches exactly four digits, the whole string must
  be consumed, and the captured values must form a valid calendar date
  (month 1..12, day within the month length including leap years,
  year 1..9999).  strftime of the result uses a two-digit zero padded
  month and day and the decimal year without padding (glibc behaviour
  for years below 1000; years parsed from four digits never exceed 9999).

- pydantic model construction is modelled by mk functions returning
  Except String when validation can fail.  Relevant pydantic v2 rules:
  a field annotated str rejects an explicit None argument even when its
  declared default is None; a str-valued Enum field accepts exactly the
  enumerated values; keyword arguments that do not correspond to any
  declared field are silently ignored (default extra behaviour); list
  fields receive the provided lists unchanged.
-/

deriving instance DecidableEq for Except

/-- Python strings are modelled as lists of characters. -/
abbrev Str := List Char

/-- Coercion from a Lean string literal to the model type. -/
def str (s : String) : Str := s.data

/-- Python str.strip with no arguments: remove leading and trailing whitespace. -/
def pytrim (s : Str) : Str :=
  ((s.dropWhile Char.isWhitespace).reverse.dropWhile Char.isWhitespace).reverse

/-- Test whether pat occurs at the start of s (used for substring search and split). -/
def startsWithL : Str → Str → Bool
  | [], _ => true
  | _ :: _, [] => false
  | p :: ps, c :: cs => (p == c) && startsWithL ps cs

/-- Python substring containment, the in operator on str: pat occurs somewhere in s. -/
def containsSub (pat : Str) : Str → Bool
  | [] => startsWithL pat []
  | c :: cs => startsWithL pat (c :: cs) || containsSub pat cs

/-- Worker for pySplit, structurally recursive on a fuel argument that
bounds the number of characters still to be scanned. -/
def pySplitAux (sep : Str) : Nat → Str → Str → List Str
  | _, [], acc => [acc.reverse]
  | 0, c :: cs, acc => [acc.reverse ++ (c :: cs)]
  | fuel + 1, c :: cs, acc =>
    if startsWithL sep (c :: cs) then
      acc.reverse :: pySplitAux sep fuel (List.drop sep.length (c :: cs)) []
    else
      pySplitAux sep fuel cs (c :: acc)

/-- Python str.split with a non-empty separator: scan left to right,
cutting at each non-overlapping occurrence of the separator. -/
def pySplit (sep s : Str) : List Str := pySplitAux sep s.length s []

/-- Numeric value of a decimal digit character. -/
def digitVal (c : Char) : Nat := c.toNat - 48

/-- Natural number denoted by a list of decimal digit characters. -/
def natOfDigits (cs : Str) : Nat := cs.foldl (fun a c => a * 10 + digitVal c) 0

/-- Decimal digit character for a value below ten. -/
def digitChar (n : Nat) : Char := Char.ofNat (48 + n)

/-- Two-digit zero padded rendering used by strftime for the m and d fields. -/
def pad2 (n : Nat) : Str := [digitChar (n / 10), digitChar (n % 10)]

/-- Four decimal digits of a year below 10000, most significant first. -/
def year4 (y : Nat) : Str :=
  [digitChar (y / 1000), digitChar (y / 100 % 10), digitChar (y / 10 % 10), digitChar (y % 10)]

/-- Rendering of the year field by strftime: the decimal digits without
zero padding (glibc behaviour; years here are between 1 and 9999). -/
def yearStr (y : Nat) : Str := (year4 y).dropWhile (· == '0')

/-- Gregorian leap-year rule, as validated by datetime.strptime. -/
def isLeapYear (y : Nat) : Bool := (y % 4 == 0 && y % 100 != 0) || y % 400 == 0

/-- Number of days of a month, as validated by datetime.strptime. -/
def daysInMonth (y m : Nat) : Nat :=
  if m = 2 then (if isLeapYear y then 29 else 28)
  else if m = 4 ∨ m = 6 ∨ m = 9 ∨ m = 11 then 30
  else 31

/-- Calendar validity check performed by datetime.strptime on the captured
month, day and year values (datetime years range over 1..9999). -/
def validDate (y m d : Nat) : Bool :=
  decide (1 ≤ y ∧ y ≤ 9999 ∧ 1 ≤ m ∧ m ≤ 12 ∧ 1 ≤ d ∧ d ≤ daysInMonth y m)

/-- strptime against a month sep day sep four-digit-year pattern (the
formats m/d/Y and m-d-Y of _normalize_date).  Returns the captured
(year, month, day) values without calendar validation. -/
def matchMDY (sep : Char) (s : Str) : Option (Nat × Nat × Nat) :=
  let a := s.takeWhile Char.isDigit
  let r := s.dropWhile Char.isDigit
  if a.length = 1 ∨ a.length = 2 then
    match r with
    | s1 :: r1 =>
      if s1 = sep then
        let b := r1.takeWhile Char.isDigit
        let r2 := r1.dropWhile Char.isDigit
        if b.length = 1 ∨ b.length = 2 then
          match r2 with
          | s2 :: r3 =>
            if s2 = sep then
              let c := r3.takeWhile Char.isDigit
              let r4 := r3.dropWhile Char.isDigit
              if c.length = 4 ∧ r4 = [] then
                some (natOfDigits c, natOfDigits a, natOfDigits b)
              else none
            else none
          | [] => none
        else none
      else none
    | [] => none
  else none

/-- strptime against a four-digit-year sep month sep day pattern (the
formats Y-m-d and Y/m/d of _normalize_date). -/
def matchYMD (sep : Char) (s : Str) : Option (Nat × Nat × Nat) :=
  let a := s.takeWhile Char.isDigit
  let r := s.dropWhile Char.isDigit
  if a.length = 4 then
    match r with
    | s1 :: r1 =>
      if s1 = sep then
        let b := r1.takeWhile Char.isDigit
        let r2 := r1.dropWhile Char.isDigit
        if b.length = 1 ∨ b.length = 2 then
          match r2 with
          | s2 :: r3 =>
            if s2 = sep then
              let c := r3.takeWhile Char.isDigit
              let r4 := r3.dropWhile Char.isDigit
              if (c.length = 1 ∨ c.length = 2) ∧ r4 = [] then
                some (natOfDigits a, natOfDigits b, natOfDigits c)
              else none
            else none
          | [] => none
        else none
      else none
    | [] => none
  else none

/-- strftime of a parsed date with the Y-m-d output format of _normalize_date. -/
def strftimeYmd (y m d : Nat) : Str := yearStr y ++ '-' :: pad2 m ++ '-' :: pad2 d

/-- One iteration of the format loop of _normalize_date: if the pattern
matches and the captured values form a valid date, re-render; otherwise
signal failure (ValueError) so the next format is attempted. -/
def tryFmt (p : Str → Option (Nat × Nat × Nat)) (s : Str) : Option Str :=
  match p s with
  | some (y, m, d) => if validDate y m d then some (strftimeYmd y m d) else none
  | none => none

namespace CourtRecordParser

/-- CourtRecordParser._normalize_date from src/utils/parser.py: absent on
the empty string; otherwise the first of the four formats that parses
re-renders the date as Y-m-d, and if none parses the original string is
returned unchanged. -/
def normalize_date (date_str : Str) : Option Str :=
  if date_str.isEmpty then none
  else
    some ((tryFmt (matchMDY '/') date_str <|> tryFmt (matchMDY '-') date_str <|>
      tryFmt (matchYMD '-') date_str <|> tryFmt (matchYMD '/') date_str).getD date_str)

end CourtRecordParser

namespace CourtRecordParser

/-- CourtRecordParser._extract_count from src/utils/parser.py: derive the
party count from a case-style string.  Absent when the string contains the
XXXX placeholder or is blank; otherwise split on the first matching
separator among the four tested in order; absent when none occurs. -/
def extract_count (case_style : Str) : Option Nat :=
  if containsSub (str (r"XXXX")) case_style || (pytrim case_style).isEmpty then
    none
  else if containsSub (str (r" vs. ")) case_style then
    some (pySplit (str (r" vs. ")) case_style).length
  else if containsSub (str (r" vs ")) case_style then
    some (pySplit (str (r" vs ")) case_style).length
  else if containsSub (str (r" v. ")) case_style then
    some (pySplit (str (r" v. ")) case_style).length
  else if containsSub (str (r" v ")) case_style then
    some (pySplit (str (r" v ")) case_style).length
  else
    none

end CourtRecordParser

/-- A td cell of a parsed document: its text content, and whether the cell
contains an anchor element (cell.find of an a-tag is truthy). -/
structure Cell where
  text : Str
  hasLink : Bool
deriving DecidableEq

/-- A tr row: its role attribute (when present) and its td cells. -/
structure Row where
  role : Option Str
  tds : List Cell
deriving DecidableEq

/-- A table element: its first tbody child, when present, holding rows. -/
structure HtmlTable where
  tbody : Option (List Row)
deriving DecidableEq

/-- The rows of a tbody carrying the row role attribute, as selected by
find_all of tr with role equal to row. -/
def dataRows (rows : List Row) : List Row :=
  rows.filter fun r => r.role == some (str (r"row"))

/-- A results-listing document for parse_search_results.  The two-step table
lookup of the source (by id, then by a class pattern) is abstracted to the
table it locates, when either lookup succeeds. -/
structure SearchDoc where
  resultsTable : Option HtmlTable

/-- A div region holding at most one table (the events and hearings tabs,
where the source calls find of a table inside the div). -/
structure DivWithTable where
  table : Option HtmlTable

/-- The parties div region: the source uses both its first table (parties)
and its second table (attorneys), so the full table list is kept. -/
structure PartiesDiv where
  tables : List HtmlTable

/-- The info region of a detail document, abstracting step 3 of
_extract_case_info_from_detail: the four labelled regular-expression
captures over the reconstructed paragraph text, each absent when its
label does not occur.  The filing-date capture is constrained by its
regex to a non-empty digits-and-slashes form but is stored here as raw
captured text; the other three captures are raw group text to which the
source applies strip. -/
structure InfoSection where
  caseTypeRaw : Option Str
  filingDateRaw : Option Str
  statusRaw : Option Str
  locationRaw : Option Str

/-- A single-case detail document, holding the structurally identified
regions that parse_case_detail reads: the case-number h1 heading text,
the caption h3 heading text, the info region, and the parties, events and
hearings div regions. -/
structure DetailDoc where
  caseNumberHeader : Option Str
  caseCaption : Option Str
  infoSection : Option InfoSection
  partiesDiv : Option PartiesDiv
  eventsDiv : Option DivWithTable
  hearingsDiv : Option DivWithTable

/-- PartyRole from src/models/schemas.py: the fixed enumeration of
party roles. -/
inductive PartyRole
  | plaintiff
  | defendant
  | petitioner
  | respondent
  | appellant
  | appellee
  | other
deriving DecidableEq

/-- Coercion of a string to a PartyRole member, as pydantic performs for a
str-valued Enum field: exactly the seven enumerated values are accepted. -/
def PartyRole.ofValue (s : Str) : Option PartyRole :=
  if s = str (r"Plaintiff") then some .plaintiff
  else if s = str (r"Defendant") then some .defendant
  else if s = str (r"Petitioner") then some .petitioner
  else if s = str (r"Respondent") then some .respondent
  else if s = str (r"Appellant") then some .appellant
  else if s = str (r"Appellee") then some .appellee
  else if s = str (r"Other") then some .other
  else none

/-- Party from src/models/schemas.py. -/
structure Party where
  first_name : Str
  middle_name : Str
  last_name : Str
  role : PartyRole
deriving DecidableEq

/-- Construction of a Party as the parser performs it, with the role given
as a string: pydantic validates the role against the PartyRole enumeration
and raises a ValidationError when it is not one of the seven values. -/
def mkParty (role first_name middle_name last_name : Str) : Except String Party :=
  match PartyRole.ofValue role with
  | some r => .ok ⟨first_name, middle_name, last_name, r⟩
  | none => .error (r"Party.role: input is not a valid PartyRole")

/-- Hearing from src/models/schemas.py, lines 54..71: the pydantic model
declares exactly the optional fields date, type, department, judge and
result.  It declares no time, datetime or has_documents field. -/
structure Hearing where
  date : Option Str
  type : Option Str
  department : Option Str
  judge : Option Str
  result : Option Str
deriving DecidableEq

/-- Construction of a Hearing as _extract_hearings performs it, passing
date, time, datetime, type, department, result and has_documents keyword
arguments.  The pydantic model declares none of time, datetime and
has_documents, and with the default extra behaviour unknown keyword
arguments are silently ignored, so those three values are dropped; judge
is never passed and keeps its None default.  The str arguments are
accepted by the Optional str fields, so construction never fails. -/
def mkHearing (date : Option Str) (_time _datetime : Str) (type department result : Str)
    (_has_documents : Bool) : Hearing :=
  ⟨date, some type, some department, none, some result⟩

/-- Event from src/models/schemas.py. -/
structure Event where
  file_date : Str
  file_type : Str
  filed_by : Option Str
  comment : Option Str
  has_documents : Bool
deriving DecidableEq

/-- Construction of an Event as _extract_events performs it: file_date is a
required str field, and the parser passes the result of _normalize_date,
which is None exactly when the raw date was empty; pydantic rejects an
explicit None for a str-annotated field, raising a ValidationError. -/
def mkEvent (file_date : Option Str) (file_type : Str) (filed_by comment : Option Str)
    (has_documents : Bool) : Except String Event :=
  match file_date with
  | some fd => .ok ⟨fd, file_type, filed_by, comment, has_documents⟩
  | none => .error (r"Event.file_date: input should be a valid string")

/-- Attorney from src/models/schemas.py; all four fields are str and the
parser always passes strings, so construction never fails. -/
structure Attorney where
  first_name : Str
  middle_name : Str
  last_name : Str
  representing : Str
deriving DecidableEq

/-- CaseMetadata from src/models/schemas.py.  The parser passes a
raw_html_path keyword, which is not a declared field and is silently
ignored; fixture_path keeps its None default. -/
structure CaseMetadata where
  fixture_available : Bool
  fixture_path : Option Str
deriving DecidableEq

/-- Case from src/models/schemas.py (the search-result case summary). -/
structure Case where
  case_number : Str
  filing_date : Option Str
  case_type : Option Str
  status : Option Str
  parties : Option Nat
  metadata : Option CaseMetadata
deriving DecidableEq

/-- Financial from src/models/schemas.py; its float fields are modelled as
rationals.  The parser never populates it. -/
structure Financial where
  fines : Option Rat
  fees : Option Rat
  balance : Option Rat
  payments : Option Rat
deriving DecidableEq

/-- CaseDetail from src/models/schemas.py, lines 189..200.  The fields
case_caption through court_location are annotated str with a None default;
the list fields default to empty lists. -/
structure CaseDetail where
  case_number : Str
  case_caption : Str
  filing_date : Str
  case_type : Str
  status : Str
  court_location : Str
  parties : List Party
  attorneys : List Attorney
  hearings : List Hearing
  events : List Event
  financials : Option Financial
deriving DecidableEq

/-- Construction of a CaseDetail as parse_case_detail performs it, passing
every scalar field explicitly.  In pydantic v2 a value passed explicitly is
always validated, and the six scalar fields are annotated str (their None
default is only used when the argument is omitted, which the parser never
does), so an explicit None for any of them raises a ValidationError. -/
def mkCaseDetail (case_number case_caption filing_date case_type status court_location : Option Str)
    (parties : List Party) (attorneys : List Attorney) (hearings : List Hearing)
    (events : List Event) (financials : Option Financial) : Except String CaseDetail :=
  match case_number, case_caption, filing_date, case_type, status, court_location with
  | some n, some cap, some fd, some ct, some st, some loc =>
    .ok ⟨n, cap, fd, ct, st, loc, parties, attorneys, hearings, events, financials⟩
  | _, _, _, _, _, _ => .error (r"CaseDetail: input should be a valid string")

namespace CourtRecordParser

/-- CourtRecordParser._extract_case_from_datatable_row: require at least six
cells, a non-empty trimmed case number in cell 1, and build the Case from
cells 1..5.  Cell texts are taken with strip; the filing date in cell 5 is
not passed through _normalize_date.  Construction of Case and CaseMetadata
cannot fail (the unknown raw_html_path keyword is ignored), so the
enclosing try-except of the source never fires and the skip outcomes are
exactly the two explicit None returns. -/
def extract_case_from_datatable_row (row : Row) : Option Case :=
  match row.tds with
  | _c0 :: c1 :: c2 :: c3 :: c4 :: c5 :: _ =>
    let case_number := pytrim c1.text
    if case_number.isEmpty then none
    else
      let case_style := pytrim c2.text
      some { case_number := case_number
             filing_date := some (pytrim c5.text)
             case_type := some (pytrim c4.text)
             status := some (pytrim c3.text)
             parties := extract_count case_style
             metadata := some { fixture_available := false, fixture_path := none } }
  | _ => none

/-- CourtRecordParser.parse_search_results: empty sequence when no results
table is located or the table has no tbody; otherwise the rows of the
tbody carrying the row role, each extracted independently, rows yielding
None (or an exception, which cannot occur in the row extractor as
modelled) being skipped. -/
def parse_search_results (doc : SearchDoc) : List Case :=
  match doc.resultsTable with
  | none => []
  | some t =>
    match t.tbody with
    | none => []
    | some rows => (dataRows rows).filterMap extract_case_from_datatable_row

/-- CourtRecordParser._extract_case_number_from_header: the stripped text of
the case-number heading, when present. -/
def extract_case_number_from_header (doc : DetailDoc) : Option Str :=
  doc.caseNumberHeader.map pytrim

/-- CourtRecordParser._extract_case_caption: the stripped text of the
caption heading, when present. -/
def extract_case_caption (doc : DetailDoc) : Option Str :=
  doc.caseCaption.map pytrim

/-- Result of _extract_case_info_from_detail: the info dict, one optional
entry per labelled field. -/
structure CaseInfo where
  filing_date : Option Str
  case_type : Option Str
  status : Option Str
  court_location : Option Str
deriving DecidableEq

/-- CourtRecordParser._extract_case_info_from_detail: when the info region
is present, each labelled capture is stripped and stored, and the filing
date capture is additionally passed through _normalize_date (its regex
makes it non-empty, so the normalizer yields a value); absent labels give
an info dict without the entry.  A missing info region yields the empty
dict. -/
def extract_case_info_from_detail (doc : DetailDoc) : CaseInfo :=
  match doc.infoSection with
  | none => ⟨none, none, none, none⟩
  | some s =>
    { filing_date := s.filingDateRaw.bind normalize_date
      case_type := s.caseTypeRaw.map pytrim
      status := s.statusRaw.map pytrim
      court_location := s.locationRaw.map pytrim }

/-- One body row of the parties table, as processed inside the loop of
_extract_parties: a single-cell row is skipped, a row with at least four
cells and a non-empty trimmed role cell builds a Party (whose role
validation can raise), and every other row is skipped. -/
def partyRowStep (acc : List Party) (row : Row) : Except String (List Party) :=
  match row.tds with
  | [_] => .ok acc
  | c0 :: c1 :: c2 :: c3 :: _ =>
    let party_type := pytrim c0.text
    if party_type.isEmpty then .ok acc
    else do
      let p ← mkParty party_type (pytrim c1.text) (pytrim c2.text) (pytrim c3.text)
      .ok (acc ++ [p])
  | _ => .ok acc

/-- CourtRecordParser._extract_parties: the parties div, its first table,
that table's tbody and its role-marked rows; an absent region, table or
tbody yields the empty list.  A raised ValidationError inside the loop
propagates (modelled as the error of the fold). -/
def extract_parties (doc : DetailDoc) : Except String (List Party) :=
  match doc.partiesDiv with
  | none => .ok []
  | some pd =>
    match pd.tables.head? with
    | none => .ok []
    | some t =>
      match t.tbody with
      | none => .ok []
      | some rows => (dataRows rows).foldlM partyRowStep []

/-- CourtRecordParser._extract_attorneys: the second table of the parties
div (none extracted when fewer than two tables), its tbody, and all of its
rows without a role filter.  A single-cell no-data row is skipped by the
explicit check; any other row with fewer than four cells is skipped by the
cell-count guard; rows with four or more cells are emitted when the first
or last name is non-empty.  Attorney construction cannot fail. -/
def extract_attorneys (doc : DetailDoc) : List Attorney :=
  match doc.partiesDiv with
  | none => []
  | some pd =>
    match pd.tables with
    | _ :: t1 :: _ =>
      match t1.tbody with
      | none => []
      | some rows =>
        rows.foldl (fun acc row =>
          match row.tds with
          | c0 :: c1 :: c2 :: c3 :: _ =>
            let first_name := pytrim c1.text
            let last_name := pytrim c3.text
            if first_name.isEmpty && last_name.isEmpty then acc
            else acc ++ [⟨first_name, pytrim c2.text, last_name, pytrim c0.text⟩]
          | _ => acc) []
    | _ => []

/-- One role-marked body row of the events table, as processed inside the
loop of _extract_events: rows with at least five cells whose date or type
is non-empty construct an Event (file_date passes through _normalize_date
first, and the construction can raise when the date was empty); all other
rows are skipped. -/
def eventRowStep (acc : List Event) (row : Row) : Except String (List Event) :=
  match row.tds with
  | c0 :: c1 :: c2 :: c3 :: c4 :: _ =>
    let file_date := pytrim c0.text
    let file_type := pytrim c1.text
    let filed_by := pytrim c2.text
    let comment := pytrim c3.text
    let has_documents := c4.hasLink
    if !file_date.isEmpty || !file_type.isEmpty then do
      let e ← mkEvent (normalize_date file_date) file_type
        (if filed_by.isEmpty then none else some filed_by)
        (if comment.isEmpty then none else some comment) has_documents
      .ok (acc ++ [e])
    else .ok acc
  | _ => .ok acc

/-- CourtRecordParser._extract_events: the events div, its table, its tbody
and its role-marked rows; an absent region, table or tbody yields the
empty list; a ValidationError raised for a row propagates. -/
def extract_events (doc : DetailDoc) : Except String (List Event) :=
  match doc.eventsDiv with
  | none => .ok []
  | some dv =>
    match dv.table with
    | none => .ok []
    | some t =>
      match t.tbody with
      | none => .ok []
      | some rows => (dataRows rows).foldlM eventRowStep []

/-- CourtRecordParser._extract_hearings: the hearings div, its table, its
tbody and its role-marked rows; rows with at least six cells whose date or
type is non-empty are emitted.  The combined datetime string joining the
raw date and time with one space and stripping is computed, and passed to
the Hearing constructor along with time and has_documents, where the
pydantic model silently drops all three; construction never fails. -/
def extract_hearings (doc : DetailDoc) : List Hearing :=
  match doc.hearingsDiv with
  | none => []
  | some dv =>
    match dv.table with
    | none => []
    | some t =>
      match t.tbody with
      | none => []
      | some rows =>
        (dataRows rows).foldl (fun acc row =>
          match row.tds with
          | c0 :: c1 :: c2 :: c3 :: c4 :: c5 :: _ =>
            let department := pytrim c0.text
            let hearing_type := pytrim c1.text
            let date := pytrim c2.text
            let time := pytrim c3.text
            let result := pytrim c4.text
            let has_documents := c5.hasLink
            let full_datetime := pytrim (date ++ ' ' :: time)
            if !date.isEmpty || !hearing_type.isEmpty then
              acc ++ [mkHearing (normalize_date date) time full_datetime hearing_type
                department result has_documents]
            else acc
          | _ => acc) []

/-- Python truthiness of the expression case_number or extracted: an
empty or absent case_number argument falls back to the extracted value. -/
def pyOrStr (a b : Option Str) : Option Str :=
  match a with
  | some s => if s.isEmpty then b else some s
  | none => b

/-- The body of the try block of parse_case_detail: each extraction step in
source order, ending in CaseDetail construction; any raised ValidationError
becomes the error branch. -/
def parse_case_detailE (doc : DetailDoc) (case_number : Option Str) : Except String CaseDetail :=
  let extracted := extract_case_number_from_header doc
  let case_number := pyOrStr case_number extracted
  let case_caption := extract_case_caption doc
  let case_info := extract_case_info_from_detail doc
  do
    let parties ← extract_parties doc
    let attorneys := extract_attorneys doc
    let events ← extract_events doc
    let hearings := extract_hearings doc
    mkCaseDetail case_number case_caption case_info.filing_date case_info.case_type
      case_info.status case_info.court_location parties attorneys hearings events none

/-- CourtRecordParser.parse_case_detail: the whole-document parse inside a
try-except that converts any exception into an absent result. -/
def parse_case_detail (doc : DetailDoc) (case_number : Option Str) : Option CaseDetail :=
  match parse_case_detailE doc case_number with
  | .ok d => some d
  | .error _ => none

end CourtRecordParser

/-- Shorthand for a td cell holding one text node and no anchor element. -/
def tdCell (s : String) : Cell := ⟨s.data, false⟩

/-- Shorthand for a td cell holding one text node and an anchor element. -/
def tdCellLink (s : String) : Cell := ⟨s.data, true⟩

/-- Shorthand for a tr row carrying the row role attribute. -/
def dataRow (cells : List Cell) : Row := ⟨some (str (r"row")), cells⟩

/-- A hearings detail document whose single role-marked row carries the six
cells of the specification scenario; the parameter sets whether the sixth
cell contains a hyperlink element. -/
def hearingsScenarioDoc (link : Bool) : DetailDoc :=
  ⟨none, none, none, none, none,
    some ⟨some ⟨some [⟨some (str (r"row")),
      [tdCell (r"Dept 12"), tdCell (r"Arraignment"), tdCell (r"03/15/2024"),
        tdCell (r"09:00 AM"), tdCell (r"Held"), ⟨[], link⟩]⟩]⟩⟩⟩

/-- A results-listing document with three role-marked rows: one with too
few cells, one with a whitespace-only case number, and one valid row. -/
def searchMixedDoc : SearchDoc :=
  ⟨some ⟨some [dataRow [tdCell (r"a"), tdCell (r"b")],
    dataRow [tdCell (r""), tdCell (r"  "), tdCell (r"x"), tdCell (r"y"), tdCell (r"z"),
      tdCell (r"w")],
    dataRow [tdCell (r""), tdCell (r"21CR012345"), tdCell (r"People vs. Smith"),
      tdCell (r"Active"), tdCell (r"Criminal"), tdCell (r"05/15/2021")]]⟩⟩

/-- A results-listing document holding exactly the valid row of the
end-to-end search scenario of the specification. -/
def searchScenarioDoc : SearchDoc :=
  ⟨some ⟨some [dataRow [tdCell (r""), tdCell (r"21CR012345"),
    tdCell (r"People vs. Smith"), tdCell (r"Active"), tdCell (r"Criminal"),
    tdCell (r"05/15/2021")]]⟩⟩

/-- A detail document whose parties table holds one row with the
unrecognized role value Witness, all other regions well formed. -/
def badRoleDoc : DetailDoc :=
  ⟨some (str (r"21CR012345")), some (str (r"People vs. Smith")),
    some ⟨some (str (r"Criminal")), some (str (r"05/15/2021")), some (str (r"Active")),
      some (str (r"Hall of Justice"))⟩,
    some ⟨[⟨some [dataRow [tdCell (r"Witness"), tdCell (r"John"), tdCell (r""),
      tdCell (r"Smith")]]⟩]⟩,
    none, none⟩

/-- A detail document, well formed except that the single role-marked row
of its events table has an empty file date and the non-empty file type
Motion. -/
def eventBadRowDoc : DetailDoc :=
  ⟨some (str (r"21CR012345")), some (str (r"People vs. Smith")),
    some ⟨some (str (r"Criminal")), some (str (r"05/15/2021")), some (str (r"Active")),
      some (str (r"Hall of Justice"))⟩,
    none,
    some ⟨some ⟨some [dataRow [tdCell (r""), tdCell (r"Motion"), tdCell (r""), tdCell (r""),
      tdCell (r"")]]⟩⟩,
    none⟩

/-- A detail document whose events table holds exactly the row of the
end-to-end events scenario of the specification, the fifth cell holding a
hyperlink element. -/
def eventsScenarioDoc : DetailDoc :=
  ⟨none, none, none, none,
    some ⟨some ⟨some [dataRow [tdCell (r"02/15/2024"), tdCell (r"Motion"),
      tdCell (r"Jane Doe"), tdCell (r"Request for continuance"), tdCellLink (r"")]]⟩⟩,
    none⟩

/-- A detail document whose events table holds one role-marked row of five
cells, all blank. -/
def eventsBlankRowDoc : DetailDoc :=
  ⟨none, none, none, none,
    some ⟨some ⟨some [dataRow [tdCell (r""), tdCell (r""), tdCell (r""), tdCell (r""),
      tdCell (r"")]]⟩⟩,
    none⟩

/-- A detail document with the parties region absent whose caption is
present but whose case-number heading and info region are absent. -/
def captionOnlyDoc : DetailDoc :=
  ⟨none, some (str (r"People vs. Smith")), none, none, none, none⟩

/-- A detail document with case number, caption and all four info fields
present, whose parties region is present but its only table has no tbody,
and whose events and hearings regions are absent. -/
def partiesNoTbodyDoc : DetailDoc :=
  ⟨some (str (r"21CR012345")), some (str (r"People vs. Smith")),
    some ⟨some (str (r"Criminal")), some (str (r"05/15/2021")), some (str (r"Active")),
      some (str (r"Hall of Justice"))⟩,
    some ⟨[⟨none⟩]⟩, none, none⟩

/-- Frequently used fact: a non-empty list has isEmpty false. -/
lemma isEmpty_false_of_ne_nil {α : Type} {l : List α} (h : l ≠ []) : l.isEmpty = false := by
  cases l with
  | nil => exact absurd rfl h
  | cons a as => rfl

/-- A digit character rendered from a value below ten satisfies isDigit. -/
lemma isDigit_digitChar {n : Nat} (h : n ≤ 9) : (digitChar n).isDigit = true := by
  interval_cases n <;> decide

/-- Reading back the value of a rendered digit character. -/
lemma digitVal_digitChar {n : Nat} (h : n ≤ 9) : digitVal (digitChar n) = n := by
  interval_cases n <;> decide

/-- A rendered digit character equals the zero character exactly for the
value zero. -/
lemma digitChar_beq_zero {n : Nat} (h : n ≤ 9) : (digitChar n == '0') = (n == 0) := by
  interval_cases n <;> decide

/-- takeWhile and dropWhile on a list made of a satisfying block followed
by a failing element. -/
lemma takeWhile_append_cons {p : Char → Bool} :
    ∀ (A : List Char), (∀ c ∈ A, p c = true) → ∀ (b : Char), p b = false → ∀ R : List Char,
      (A ++ b :: R).takeWhile p = A ∧ (A ++ b :: R).dropWhile p = b :: R := by
  intro A
  induction A with
  | nil =>
    intro _ b hb R
    simp [List.takeWhile_cons, List.dropWhile_cons, hb]
  | cons a A ih =>
    intro hA b hb R
    have ha : p a = true := hA a (List.mem_cons_self a A)
    have hrest := ih (fun c hc => hA c (List.mem_cons_of_mem a hc)) b hb R
    simp [List.takeWhile_cons, List.dropWhile_cons, ha, hrest.1, hrest.2]

/-- takeWhile and dropWhile on a list all of whose elements satisfy the
predicate. -/
lemma takeWhile_all {p : Char → Bool} :
    ∀ (A : List Char), (∀ c ∈ A, p c = true) → A.takeWhile p = A ∧ A.dropWhile p = [] := by
  intro A
  induction A with
  | nil => intro _; exact ⟨rfl, rfl⟩
  | cons a A ih =>
    intro hA
    have ha : p a = true := hA a (List.mem_cons_self a A)
    have hrest := ih (fun c hc => hA c (List.mem_cons_of_mem a hc))
    simp [List.takeWhile_cons, List.dropWhile_cons, ha, hrest.1, hrest.2]

/-- Membership is preserved from dropWhile back to the original list. -/
lemma mem_of_mem_dropWhile {p : Char → Bool} :
    ∀ (l : List Char) (c : Char), c ∈ l.dropWhile p → c ∈ l := by
  intro l
  induction l with
  | nil => intro c hc; cases hc
  | cons a tl ih =>
    intro c hc
    rw [List.dropWhile_cons] at hc
    by_cases ha : p a = true
    · rw [if_pos ha] at hc
      exact List.mem_cons_of_mem a (ih c hc)
    · rw [if_neg ha] at hc
      exact hc

/-- A list entirely consumed by dropWhile satisfies the predicate
everywhere. -/
lemma forall_of_dropWhile_eq_nil {p : Char → Bool} :
    ∀ l : List Char, l.dropWhile p = [] → ∀ c ∈ l, p c = true := by
  intro l
  induction l with
  | nil => intro _ c hc; cases hc
  | cons a tl ih =>
    intro h c hc
    rw [List.dropWhile_cons] at h
    by_cases ha : p a = true
    · rw [if_pos ha] at h
      rcases List.mem_cons.mp hc with rfl | hm
      · exact ha
      · exact ih h c hm
    · rw [if_neg ha] at h
      cases h

/-- The length of dropWhile never exceeds the original length. -/
lemma length_dropWhile_le {p : Char → Bool} :
    ∀ l : List Char, (l.dropWhile p).length ≤ l.length := by
  intro l
  induction l with
  | nil => exact Nat.le_refl 0
  | cons a tl ih =>
    rw [List.dropWhile_cons]
    by_cases ha : p a = true
    · rw [if_pos ha]
      exact Nat.le_succ_of_le ih
    · rw [if_neg ha]

/-- Every character of a two-digit padded rendering is a digit. -/
lemma pad2_digits {n : Nat} (h : n ≤ 99) : ∀ c ∈ pad2 n, c.isDigit = true := by
  intro c hc
  simp only [pad2, List.mem_cons, List.not_mem_nil, or_false] at hc
  rcases hc with rfl | rfl
  · exact isDigit_digitChar (by omega)
  · exact isDigit_digitChar (by omega)

/-- Reading back a two-digit padded rendering. -/
lemma natOfDigits_pad2 {n : Nat} (h : n ≤ 99) : natOfDigits (pad2 n) = n := by
  have h1 : n / 10 ≤ 9 := by omega
  have h2 : n % 10 ≤ 9 := by omega
  simp only [natOfDigits, pad2, List.foldl, digitVal_digitChar h1, digitVal_digitChar h2]
  omega

/-- Every character of the four-digit year rendering is a digit. -/
lemma year4_digits {y : Nat} (h : y ≤ 9999) : ∀ c ∈ year4 y, c.isDigit = true := by
  intro c hc
  simp only [year4, List.mem_cons, List.not_mem_nil, or_false] at hc
  rcases hc with rfl | rfl | rfl | rfl
  · exact isDigit_digitChar (by omega)
  · exact isDigit_digitChar (by omega)
  · exact isDigit_digitChar (by omega)
  · exact isDigit_digitChar (by omega)

/-- Reading back the four-digit year rendering. -/
lemma natOfDigits_year4 {y : Nat} (h : y ≤ 9999) : natOfDigits (year4 y) = y := by
  have h3 : y / 1000 ≤ 9 := by omega
  have h2 : y / 100 % 10 ≤ 9 := by omega
  have h1 : y / 10 % 10 ≤ 9 := by omega
  have h0 : y % 10 ≤ 9 := by omega
  simp only [natOfDigits, year4, List.foldl, digitVal_digitChar h3, digitVal_digitChar h2,
    digitVal_digitChar h1, digitVal_digitChar h0]
  omega

/-- For years of four digits the unpadded rendering keeps all four. -/
lemma yearStr_of_ge1000 {y : Nat} (h1 : 1000 ≤ y) (h2 : y ≤ 9999) : yearStr y = year4 y := by
  have hq : (digitChar (y / 1000) == '0') = false := by
    rw [digitChar_beq_zero (by omega)]
    simp only [beq_eq_false_iff_ne, ne_eq]
    omega
  unfold yearStr year4
  rw [List.dropWhile_cons, if_neg (by simp [hq])]

/-- Every character of the unpadded year rendering is a digit. -/
lemma yearStr_digits {y : Nat} (h : y ≤ 9999) : ∀ c ∈ yearStr y, c.isDigit = true := by
  intro c hc
  exact year4_digits h c (mem_of_mem_dropWhile (year4 y) c hc)

/-- The unpadded rendering of a positive year is non-empty. -/
lemma yearStr_ne_nil {y : Nat} (h1 : 1 ≤ y) (h2 : y ≤ 9999) : yearStr y ≠ [] := by
  intro hcon
  have hall := forall_of_dropWhile_eq_nil (year4 y) hcon
  have e3 := hall (digitChar (y / 1000)) (by simp [year4])
  have e2 := hall (digitChar (y / 100 % 10)) (by simp [year4])
  have e1 := hall (digitChar (y / 10 % 10)) (by simp [year4])
  have e0 := hall (digitChar (y % 10)) (by simp [year4])
  rw [digitChar_beq_zero (by omega)] at e3 e0
  rw [digitChar_beq_zero (by omega)] at e2
  rw [digitChar_beq_zero (by omega)] at e1
  simp only [beq_iff_eq] at e3 e2 e1 e0
  omega

/-- For years below 1000 the unpadded rendering has at most three
characters. -/
lemma yearStr_length_le3 {y : Nat} (h : y ≤ 999) : (yearStr y).length ≤ 3 := by
  have hq : (digitChar (y / 1000) == '0') = true := by
    have hz : y / 1000 = 0 := by omega
    rw [hz]
    decide
  unfold yearStr year4
  rw [List.dropWhile_cons, if_pos hq]
  exact length_dropWhile_le _

/-- For years of four digits the unpadded rendering has length four and
reads back to the year. -/
lemma yearStr_length4 {y : Nat} (h1 : 1000 ≤ y) (h2 : y ≤ 9999) :
    (yearStr y).length = 4 ∧ natOfDigits (yearStr y) = y := by
  rw [yearStr_of_ge1000 h1 h2]
  exact ⟨rfl, natOfDigits_year4 h2⟩

/-- The two-digit padded rendering always has length two. -/
lemma pad2_length (n : Nat) : (pad2 n).length = 2 := rfl

/-- Normal form of the rendered date for list decomposition. -/
lemma strftimeYmd_eq (y m d : Nat) :
    strftimeYmd y m d = yearStr y ++ '-' :: (pad2 m ++ '-' :: pad2 d) := by
  simp [strftimeYmd, List.cons_append, List.append_assoc]

/-- A rendered date is never the empty string. -/
lemma strftimeYmd_ne_nil (y m d : Nat) : strftimeYmd y m d ≠ [] := by
  rw [strftimeYmd_eq]
  intro h
  rcases List.append_eq_nil.mp h with ⟨_, h2⟩
  cases h2

/-- Leading digit run of a rendered date: the year digits, stopping at the
first hyphen. -/
lemma strftime_front {y : Nat} (m d : Nat) (hy : y ≤ 9999) :
    (strftimeYmd y m d).takeWhile Char.isDigit = yearStr y ∧
    (strftimeYmd y m d).dropWhile Char.isDigit = '-' :: (pad2 m ++ '-' :: pad2 d) := by
  rw [strftimeYmd_eq]
  exact takeWhile_append_cons (yearStr y) (yearStr_digits hy) '-' (by decide) _

/-- Digit run after the first hyphen of a rendered date: the month digits,
stopping at the second hyphen. -/
lemma strftime_mid {m : Nat} (d : Nat) (hm : m ≤ 99) :
    (pad2 m ++ '-' :: pad2 d).takeWhile Char.isDigit = pad2 m ∧
    (pad2 m ++ '-' :: pad2 d).dropWhile Char.isDigit = '-' :: pad2 d :=
  takeWhile_append_cons (pad2 m) (pad2_digits hm) '-' (by decide) _

/-- Digit run after the second hyphen of a rendered date: the day digits,
consuming the rest of the string. -/
lemma strftime_tail {d : Nat} (hd : d ≤ 99) :
    (pad2 d).takeWhile Char.isDigit = pad2 d ∧ (pad2 d).dropWhile Char.isDigit = [] :=
  takeWhile_all (pad2 d) (pad2_digits hd)

/-- The slash month-first format never matches a rendered date: the first
separator encountered is a hyphen. -/
lemma matchMDY_slash_strftime {y : Nat} (m d : Nat) (hy : y ≤ 9999) :
    matchMDY '/' (strftimeYmd y m d) = none := by
  have hf := strftime_front m d hy
  simp only [matchMDY, hf.1, hf.2]
  by_cases hlen : (yearStr y).length = 1 ∨ (yearStr y).length = 2
  · rw [if_pos hlen]
    simp
  · rw [if_neg hlen]

/-- The hyphen month-first format never matches a rendered date: either the
year run is too long for the month field, or the final day field has only
two digits where four are required. -/
lemma matchMDY_dash_strftime {y m d : Nat} (hy : y ≤ 9999) (hm : m ≤ 99) (hd : d ≤ 99) :
    matchMDY '-' (strftimeYmd y m d) = none := by
  have hf := strftime_front m d hy
  have hmid := strftime_mid d hm
  have htl := strftime_tail hd
  simp only [matchMDY, hf.1, hf.2]
  by_cases hlen : (yearStr y).length = 1 ∨ (yearStr y).length = 2
  · rw [if_pos hlen]
    simp [hmid.1, hmid.2, htl.1, htl.2, pad2_length]
  · rw [if_neg hlen]

/-- The slash year-first format never matches a rendered date. -/
lemma matchYMD_slash_strftime {y : Nat} (m d : Nat) (hy : y ≤ 9999) :
    matchYMD '/' (strftimeYmd y m d) = none := by
  have hf := strftime_front m d hy
  simp only [matchYMD, hf.1, hf.2]
  by_cases hlen : (yearStr y).length = 4
  · rw [if_pos hlen]
    simp
  · rw [if_neg hlen]

/-- The hyphen year-first format recovers the original values from a
rendered date with a four-digit year. -/
lemma matchYMD_dash_strftime_big {y m d : Nat} (h1 : 1000 ≤ y) (h2 : y ≤ 9999)
    (hm : m ≤ 99) (hd : d ≤ 99) :
    matchYMD '-' (strftimeYmd y m d) = some (y, m, d) := by
  have hf := strftime_front m d h2
  have hmid := strftime_mid d hm
  have htl := strftime_tail hd
  have hy4 := yearStr_length4 h1 h2
  simp only [matchYMD, hf.1, hf.2, hmid.1, hmid.2, htl.1, htl.2]
  simp [hy4.1, hy4.2, pad2_length, natOfDigits_pad2 hm, natOfDigits_pad2 hd]

/-- The hyphen year-first format fails on a rendered date whose year has
fewer than four digits. -/
lemma matchYMD_dash_strftime_small {y : Nat} (m d : Nat) (h1 : y ≤ 999) :
    matchYMD '-' (strftimeYmd y m d) = none := by
  have hy9 : y ≤ 9999 := by omega
  have hf := strftime_front m d hy9
  have hlen : ¬((yearStr y).length = 4) := by
    have h3 := yearStr_length_le3 h1
    omega
  simp only [matchYMD, hf.1, hf.2]
  rw [if_neg hlen]

/-- A rendered valid date is a fixed point of the Date Normalizer: for a
four-digit year the hyphen year-first format re-renders it identically,
and for a shorter year no format matches and the string passes through
unchanged. -/
lemma normalize_strftime_fixed {y m d : Nat} (h : validDate y m d = true) :
    CourtRecordParser.normalize_date (strftimeYmd y m d) = some (strftimeYmd y m d) := by
  have hp : 1 ≤ y ∧ y ≤ 9999 ∧ 1 ≤ m ∧ m ≤ 12 ∧ 1 ≤ d ∧ d ≤ daysInMonth y m := by
    simpa [validDate] using h
  have hd31 : daysInMonth y m ≤ 31 := by
    unfold daysInMonth
    split
    · split <;> omega
    · split <;> omega
  have hm99 : m ≤ 99 := by omega
  have hd99 : d ≤ 99 := by omega
  have hy2 : y ≤ 9999 := hp.2.1
  have hne := strftimeYmd_ne_nil y m d
  have t1 : tryFmt (matchMDY '/') (strftimeYmd y m d) = none := by
    simp [tryFmt, matchMDY_slash_strftime m d hy2]
  have t2 : tryFmt (matchMDY '-') (strftimeYmd y m d) = none := by
    simp [tryFmt, matchMDY_dash_strftime hy2 hm99 hd99]
  have t4 : tryFmt (matchYMD '/') (strftimeYmd y m d) = none := by
    simp [tryFmt, matchYMD_slash_strftime m d hy2]
  by_cases hy : 1000 ≤ y
  · have t3 : tryFmt (matchYMD '-') (strftimeYmd y m d) = some (strftimeYmd y m d) := by
      simp [tryFmt, matchYMD_dash_strftime_big hy hy2 hm99 hd99, h]
    simp [CourtRecordParser.normalize_date, isEmpty_false_of_ne_nil hne, t1, t2, t3]
  · have hsmall : y ≤ 999 := by omega
    have hmz := matchYMD_dash_strftime_small m d hsmall
    have t3 : tryFmt (matchYMD '-') (strftimeYmd y m d) = none := by
      simp [tryFmt, hmz]
    simp [CourtRecordParser.normalize_date, isEmpty_false_of_ne_nil hne, t1, t2, t3, t4]

/-- A successful format attempt always returns a rendered valid date. -/
lemma tryFmt_some_shape {p : Str → Option (Nat × Nat × Nat)} {s r : Str}
    (h : tryFmt p s = some r) :
    ∃ y m d, validDate y m d = true ∧ r = strftimeYmd y m d := by
  unfold tryFmt at h
  cases hp : p s with
  | none => rw [hp] at h; cases h
  | some ymd =>
    obtain ⟨y, m, d⟩ := ymd
    rw [hp] at h
    dsimp only at h
    by_cases hv : validDate y m d = true
    · rw [if_pos hv] at h
      exact ⟨y, m, d, hv, (Option.some_inj.mp h).symm⟩
    · rw [if_neg hv] at h
      cases h

/-- C1: for every case-style string, party-count derivation is absent when
the string contains XXXX or is blank or carries none of the four
separators; otherwise the string is split on the first separator found,
testing in order vs.-with-spaces, vs, v., v, and the count is the number
of split segments; the example style with two vs.-separators yields 3. -/
theorem C1_party_count_derivation :
    (∀ s : Str, containsSub (str (r"XXXX")) s = true →
      CourtRecordParser.extract_count s = none)
  ∧ (∀ s : Str, pytrim s = [] → CourtRecordParser.extract_count s = none)
  ∧ (∀ s : Str,
      containsSub (str (r" vs. ")) s = false → containsSub (str (r" vs ")) s = false →
      containsSub (str (r" v. ")) s = false → containsSub (str (r" v ")) s = false →
      CourtRecordParser.extract_count s = none)
  ∧ (∀ s : Str, containsSub (str (r"XXXX")) s = false → pytrim s ≠ [] →
      containsSub (str (r" vs. ")) s = true →
      CourtRecordParser.extract_count s = some (pySplit (str (r" vs. ")) s).length)
  ∧ (∀ s : Str, containsSub (str (r"XXXX")) s = false → pytrim s ≠ [] →
      containsSub (str (r" vs. ")) s = false → containsSub (str (r" vs ")) s = true →
      CourtRecordParser.extract_count s = some (pySplit (str (r" vs ")) s).length)
  ∧ (∀ s : Str, containsSub (str (r"XXXX")) s = false → pytrim s ≠ [] →
      containsSub (str (r" vs. ")) s = false → containsSub (str (r" vs ")) s = false →
      containsSub (str (r" v. ")) s = true →
      CourtRecordParser.extract_count s = some (pySplit (str (r" v. ")) s).length)
  ∧ (∀ s : Str, containsSub (str (r"XXXX")) s = false → pytrim s ≠ [] →
      containsSub (str (r" vs. ")) s = false → containsSub (str (r" vs ")) s = false →
      containsSub (str (r" v. ")) s = false → containsSub (str (r" v ")) s = true →
      CourtRecordParser.extract_count s = some (pySplit (str (r" v ")) s).length)
  ∧ CourtRecordParser.extract_count (str (r"John Smith vs. Jane Doe vs. State")) = some 3 := by
  refine ⟨?_, ?_, ?_, ?_, ?_, ?_, ?_, by decide⟩
  · intro s h
    simp [CourtRecordParser.extract_count, h]
  · intro s h
    simp [CourtRecordParser.extract_count, h]
  · intro s h1 h2 h3 h4
    by_cases h0 : (containsSub (str (r"XXXX")) s || (pytrim s).isEmpty) = true
    · simp [CourtRecordParser.extract_count, h0]
    · simp only [Bool.not_eq_true] at h0
      simp [CourtRecordParser.extract_count, h0, h1, h2, h3, h4]
  · intro s h0 hne h1
    simp [CourtRecordParser.extract_count, h0, isEmpty_false_of_ne_nil hne, h1]
  · intro s h0 hne h1 h2
    simp [CourtRecordParser.extract_count, h0, isEmpty_false_of_ne_nil hne, h1, h2]
  · intro s h0 hne h1 h2 h3
    simp [CourtRecordParser.extract_count, h0, isEmpty_false_of_ne_nil hne, h1, h2, h3]
  · intro s h0 hne h1 h2 h3 h4
    simp [CourtRecordParser.extract_count, h0, isEmpty_false_of_ne_nil hne, h1, h2, h3, h4]

/-- Witness for C1: the fourth conjunct applied to a concrete style with a
single v separator. -/
theorem C1_party_count_derivation_witness :
    CourtRecordParser.extract_count (str (r"A v B")) = some 2 := by
  have h := C1_party_count_derivation.2.2.2.2.2.2.1 (str (r"A v B"))
    (by decide) (by decide) (by decide) (by decide) (by decide) (by decide)
  exact h.trans (by decide)

/-- C2: the Date Normalizer tries the four input patterns in priority
order, re-rendering the first match as year-month-day with hyphens; the
empty string yields no value; when no pattern matches the original string
passes through unchanged; the component is total (no exception escapes). -/
theorem C2_date_normalizer_contract :
    (CourtRecordParser.normalize_date (str (r"")) = none)
  ∧ (CourtRecordParser.normalize_date (str (r"03/15/2024")) = some (str (r"2024-03-15")))
  ∧ (CourtRecordParser.normalize_date (str (r"not-a-date")) = some (str (r"not-a-date")))
  ∧ (∀ s : Str, s ≠ [] → (CourtRecordParser.normalize_date s).isSome = true)
  ∧ (∀ s : Str, s ≠ [] →
      tryFmt (matchMDY '/') s = none → tryFmt (matchMDY '-') s = none →
      tryFmt (matchYMD '-') s = none → tryFmt (matchYMD '/') s = none →
      CourtRecordParser.normalize_date s = some s)
  ∧ (∀ s r : Str, s ≠ [] → tryFmt (matchMDY '/') s = some r →
      CourtRecordParser.normalize_date s = some r)
  ∧ (∀ s r : Str, s ≠ [] → tryFmt (matchMDY '/') s = none →
      tryFmt (matchMDY '-') s = some r →
      CourtRecordParser.normalize_date s = some r)
  ∧ (∀ s r : Str, s ≠ [] → tryFmt (matchMDY '/') s = none →
      tryFmt (matchMDY '-') s = none → tryFmt (matchYMD '-') s = some r →
      CourtRecordParser.normalize_date s = some r)
  ∧ (∀ s r : Str, s ≠ [] → tryFmt (matchMDY '/') s = none →
      tryFmt (matchMDY '-') s = none → tryFmt (matchYMD '-') s = none →
      tryFmt (matchYMD '/') s = some r →
      CourtRecordParser.normalize_date s = some r) := by
  refine ⟨by decide, by decide, by decide, ?_, ?_, ?_, ?_, ?_, ?_⟩
  · intro s h
    simp [CourtRecordParser.normalize_date, isEmpty_false_of_ne_nil h]
  · intro s h h1 h2 h3 h4
    simp [CourtRecordParser.normalize_date, isEmpty_false_of_ne_nil h, h1, h2, h3, h4]
  · intro s r h h1
    simp [CourtRecordParser.normalize_date, isEmpty_false_of_ne_nil h, h1]
  · intro s r h h1 h2
    simp [CourtRecordParser.normalize_date, isEmpty_false_of_ne_nil h, h1, h2]
  · intro s r h h1 h2 h3
    simp [CourtRecordParser.normalize_date, isEmpty_false_of_ne_nil h, h1, h2, h3]
  · intro s r h h1 h2 h3 h4
    simp [CourtRecordParser.normalize_date, isEmpty_false_of_ne_nil h, h1, h2, h3, h4]

/-- Witness for C2: the sixth conjunct applied to a concrete slash date. -/
theorem C2_date_normalizer_contract_witness :
    CourtRecordParser.normalize_date (str (r"12/31/2024")) = some (str (r"2024-12-31")) :=
  C2_date_normalizer_contract.2.2.2.2.2.1 (str (r"12/31/2024")) (str (r"2024-12-31"))
    (by decide) (by decide)

/-- C3: evaluation of the hearings extractor at the failing input.  The
emitted Hearing record has exactly the five fields date, type, department,
judge and result of the pydantic Hearing model; the time, combined
datetime and has_documents values computed by the parser are silently
dropped by model construction, as shown by the record containing none of
them and by the extraction result being unchanged when the hyperlink in
cell 5 is removed. -/
theorem C3_hearing_datetime_dropped :
    CourtRecordParser.extract_hearings (hearingsScenarioDoc true) =
      [⟨some (str (r"2024-03-15")), some (str (r"Arraignment")), some (str (r"Dept 12")),
        none, some (str (r"Held"))⟩]
  ∧ CourtRecordParser.extract_hearings (hearingsScenarioDoc true) =
      CourtRecordParser.extract_hearings (hearingsScenarioDoc false) := by
  exact ⟨by decide, by decide⟩

/-- C5: whenever the try-block body of the whole-document parse raises (the
error branch of the modelled pipeline), parse_case_detail returns absence,
and whenever it completes, the full record is returned; the function
never propagates an exception and never returns a partial record. -/
theorem C5_detail_parse_absence_on_failure :
    ∀ (doc : DetailDoc) (cn : Option Str),
      (∀ e, CourtRecordParser.parse_case_detailE doc cn = .error e →
        CourtRecordParser.parse_case_detail doc cn = none)
    ∧ (∀ d, CourtRecordParser.parse_case_detailE doc cn = .ok d →
        CourtRecordParser.parse_case_detail doc cn = some d) := by
  intro doc cn
  constructor
  · intro e h
    simp [CourtRecordParser.parse_case_detail, h]
  · intro d h
    simp [CourtRecordParser.parse_case_detail, h]

/-- Witness for C5: the empty detail document makes the pipeline raise (the
record validation rejects the absent case number), and the parse returns
absence. -/
theorem C5_detail_parse_absence_on_failure_witness :
    CourtRecordParser.parse_case_detail ⟨none, none, none, none, none, none⟩ none = none :=
  (C5_detail_parse_absence_on_failure ⟨none, none, none, none, none, none⟩ none).1
    (r"CaseDetail: input should be a valid string") (by decide)

/-- C7: the search extractor returns the empty sequence when no results
table or no tbody is found; otherwise it maps the role-marked rows through
the per-row extractor, skipping rows with fewer than six cells and rows
whose trimmed case number is empty; on a concrete document holding two
such bad rows and one valid row, exactly the valid row is returned. -/
theorem C7_search_results_row_tolerance :
    (∀ doc : SearchDoc, doc.resultsTable = none →
      CourtRecordParser.parse_search_results doc = [])
  ∧ (∀ (doc : SearchDoc) (t : HtmlTable), doc.resultsTable = some t → t.tbody = none →
      CourtRecordParser.parse_search_results doc = [])
  ∧ (∀ (doc : SearchDoc) (t : HtmlTable) (rows : List Row), doc.resultsTable = some t →
      t.tbody = some rows →
      CourtRecordParser.parse_search_results doc =
        (dataRows rows).filterMap CourtRecordParser.extract_case_from_datatable_row)
  ∧ (∀ row : Row, row.tds.length < 6 →
      CourtRecordParser.extract_case_from_datatable_row row = none)
  ∧ (∀ (row : Row) (c0 c1 : Cell) (rest : List Cell),
      row.tds = c0 :: c1 :: rest → pytrim c1.text = [] →
      CourtRecordParser.extract_case_from_datatable_row row = none)
  ∧ CourtRecordParser.parse_search_results searchMixedDoc =
      [⟨str (r"21CR012345"), some (str (r"05/15/2021")), some (str (r"Criminal")),
        some (str (r"Active")), some 2, some ⟨false, none⟩⟩] := by
  refine ⟨?_, ?_, ?_, ?_, ?_, by decide⟩
  · intro doc h
    simp [CourtRecordParser.parse_search_results, h]
  · intro doc t h1 h2
    simp [CourtRecordParser.parse_search_results, h1, h2]
  · intro doc t rows h1 h2
    simp [CourtRecordParser.parse_search_results, h1, h2]
  · intro row h
    obtain ⟨role, tds⟩ := row
    simp only [List.length] at h
    rcases tds with _ | ⟨c0, _ | ⟨c1, _ | ⟨c2, _ | ⟨c3, _ | ⟨c4, _ | ⟨c5, rest⟩⟩⟩⟩⟩⟩
    · rfl
    · rfl
    · rfl
    · rfl
    · rfl
    · rfl
    · exfalso
      simp [List.length_cons] at h
      omega
  · intro row c0 c1 rest hrow hempty
    obtain ⟨role, tds⟩ := row
    simp only at hrow
    subst hrow
    rcases rest with _ | ⟨c2, _ | ⟨c3, _ | ⟨c4, _ | ⟨c5, rest2⟩⟩⟩⟩
    · rfl
    · rfl
    · rfl
    · rfl
    · simp [CourtRecordParser.extract_case_from_datatable_row, hempty]

/-- Witness for C7: the first conjunct applied to a document with no
results table. -/
theorem C7_search_results_row_tolerance_witness :
    CourtRecordParser.parse_search_results ⟨none⟩ = [] :=
  C7_search_results_row_tolerance.1 ⟨none⟩ rfl

/-- C8: a valid results row yields a summary whose case_number, status,
case_type and filing_date are the trimmed cell texts, the filing date kept
in listing format; on the concrete scenario row the summary carries
party_count 2 and filing_date 05/15/2021, while the Date Normalizer would
have rendered that date differently, showing it was not applied. -/
theorem C8_summary_fields_trimmed_unnormalized :
    (∀ (row : Row) (c0 c1 c2 c3 c4 c5 : Cell) (rest : List Cell),
      row.tds = c0 :: c1 :: c2 :: c3 :: c4 :: c5 :: rest → pytrim c1.text ≠ [] →
      CourtRecordParser.extract_case_from_datatable_row row =
        some ⟨pytrim c1.text, some (pytrim c5.text), some (pytrim c4.text),
          some (pytrim c3.text), CourtRecordParser.extract_count (pytrim c2.text),
          some ⟨false, none⟩⟩)
  ∧ CourtRecordParser.parse_search_results searchScenarioDoc =
      [⟨str (r"21CR012345"), some (str (r"05/15/2021")), some (str (r"Criminal")),
        some (str (r"Active")), some 2, some ⟨false, none⟩⟩]
  ∧ CourtRecordParser.normalize_date (str (r"05/15/2021")) = some (str (r"2021-05-15")) := by
  refine ⟨?_, by decide, by decide⟩
  intro row c0 c1 c2 c3 c4 c5 rest hrow hne
  obtain ⟨role, tds⟩ := row
  simp only at hrow
  subst hrow
  simp [CourtRecordParser.extract_case_from_datatable_row, isEmpty_false_of_ne_nil hne]

/-- Computation rule for bind on a successful Except value. -/
lemma exceptBind_ok {ε α β : Type} (a : α) (f : α → Except ε β) :
    (Except.ok a >>= f) = f a := rfl

/-- Computation rule for bind on a failed Except value. -/
lemma exceptBind_error {ε α β : Type} (e : ε) (f : α → Except ε β) :
    ((Except.error e : Except ε α) >>= f) = Except.error e := rfl

/-- Binding pure after an Except computation changes nothing. -/
lemma exceptBind_pure {ε α : Type} (x : Except ε α) : (x >>= pure) = x := by
  cases x <;> rfl

/-- A fold of the party-row step over a row list containing a row on which
the step always fails can never succeed. -/
lemma foldlM_partyRowStep_ne_ok (rows : List Row) (r : Row)
    (hstep : ∀ acc : List Party, ∃ e, CourtRecordParser.partyRowStep acc r = .error e)
    (hmem : r ∈ rows) :
    ∀ (acc l : List Party), List.foldlM CourtRecordParser.partyRowStep acc rows ≠ .ok l := by
  induction rows with
  | nil => cases hmem
  | cons hd tl ih =>
    intro acc l h
    rw [List.foldlM_cons] at h
    rcases List.mem_cons.mp hmem with heq | hm
    · subst heq
      obtain ⟨e, he⟩ := hstep acc
      rw [he, exceptBind_error] at h
      cases h
    · cases hstep2 : CourtRecordParser.partyRowStep acc hd with
      | error e =>
        rw [hstep2, exceptBind_error] at h
        cases h
      | ok acc2 =>
        rw [hstep2, exceptBind_ok] at h
        exact ih hm acc2 l h

/-- C10: a parties-table row with four or more cells whose trimmed role
cell is non-empty but not one of the seven enumerated role values makes
the Party construction fail role validation; the extraction can then
never succeed, and the whole-document parse returns absence rather than
skipping the row or emitting the party with the raw role string. -/
theorem C10_unknown_role_aborts_whole_parse :
    ∀ (doc : DetailDoc) (cn : Option Str) (pd : PartiesDiv) (t : HtmlTable) (rows : List Row)
      (r : Row) (c0 c1 c2 c3 : Cell) (rest : List Cell),
      doc.partiesDiv = some pd → pd.tables.head? = some t → t.tbody = some rows →
      r ∈ dataRows rows → r.tds = c0 :: c1 :: c2 :: c3 :: rest →
      pytrim c0.text ≠ [] → PartyRole.ofValue (pytrim c0.text) = none →
      (∀ l, CourtRecordParser.extract_parties doc ≠ .ok l)
    ∧ CourtRecordParser.parse_case_detail doc cn = none := by
  intro doc cn pd t rows r c0 c1 c2 c3 rest h1 h2 h3 hmem hcells hne hbad
  have hstep : ∀ acc : List Party, ∃ e, CourtRecordParser.partyRowStep acc r = .error e := by
    intro acc
    obtain ⟨role, tds⟩ := r
    simp only at hcells
    subst hcells
    refine ⟨r"Party.role: input is not a valid PartyRole", ?_⟩
    simp [CourtRecordParser.partyRowStep, isEmpty_false_of_ne_nil hne, mkParty, hbad,
      exceptBind_error]
  have hparties : ∀ l, CourtRecordParser.extract_parties doc ≠ .ok l := by
    intro l
    simp only [CourtRecordParser.extract_parties, h1, h2, h3]
    exact foldlM_partyRowStep_ne_ok (dataRows rows) r hstep hmem [] l
  refine ⟨hparties, ?_⟩
  cases hE : CourtRecordParser.extract_parties doc with
  | ok l => exact absurd hE (hparties l)
  | error e =>
    have hpipe : CourtRecordParser.parse_case_detailE doc cn = .error e := by
      simp only [CourtRecordParser.parse_case_detailE]
      rw [hE, exceptBind_error]
    simp [CourtRecordParser.parse_case_detail, hpipe]

/-- Witness for C10: on the concrete document with role value Witness the
whole parse returns absence. -/
theorem C10_unknown_role_aborts_whole_parse_witness :
    CourtRecordParser.parse_case_detail badRoleDoc none = none :=
  (C10_unknown_role_aborts_whole_parse badRoleDoc none
    ⟨[⟨some [dataRow [tdCell (r"Witness"), tdCell (r"John"), tdCell (r""),
      tdCell (r"Smith")]]⟩]⟩
    ⟨some [dataRow [tdCell (r"Witness"), tdCell (r"John"), tdCell (r""), tdCell (r"Smith")]]⟩
    [dataRow [tdCell (r"Witness"), tdCell (r"John"), tdCell (r""), tdCell (r"Smith")]]
    (dataRow [tdCell (r"Witness"), tdCell (r"John"), tdCell (r""), tdCell (r"Smith")])
    (tdCell (r"Witness")) (tdCell (r"John")) (tdCell (r"")) (tdCell (r"Smith")) []
    rfl rfl rfl (by decide) rfl (by decide) (by decide)).2

/-- C9: the Date Normalizer is idempotent on its own output: whenever
normalizing s yields a value t, normalizing t yields t again; in
particular the rendered form 2024-03-15 is a fixed point. -/
theorem C9_date_normalizer_idempotent :
    (∀ s t : Str, CourtRecordParser.normalize_date s = some t →
      CourtRecordParser.normalize_date t = some t)
  ∧ CourtRecordParser.normalize_date (str (r"2024-03-15")) = some (str (r"2024-03-15")) := by
  refine ⟨?_, by decide⟩
  intro s t h
  cases hs : s.isEmpty with
  | true => simp [CourtRecordParser.normalize_date, hs] at h
  | false =>
    simp only [CourtRecordParser.normalize_date, hs, Bool.false_eq_true, if_false] at h
    cases hc : (tryFmt (matchMDY '/') s <|> tryFmt (matchMDY '-') s <|>
        tryFmt (matchYMD '-') s <|> tryFmt (matchYMD '/') s) with
    | none =>
      rw [hc] at h
      simp only [Option.getD_none, Option.some_inj] at h
      subst h
      simp [CourtRecordParser.normalize_date, hs, hc]
    | some rr =>
      rw [hc] at h
      simp only [Option.getD_some, Option.some_inj] at h
      subst h
      have hshape : ∃ y m d, validDate y m d = true ∧ rr = strftimeYmd y m d := by
        cases h1 : tryFmt (matchMDY '/') s with
        | some r1 =>
          rw [h1, Option.some_orElse] at hc
          exact tryFmt_some_shape (h1.trans hc)
        | none =>
          rw [h1, Option.none_orElse] at hc
          cases h2 : tryFmt (matchMDY '-') s with
          | some r2 =>
            rw [h2, Option.some_orElse] at hc
            exact tryFmt_some_shape (h2.trans hc)
          | none =>
            rw [h2, Option.none_orElse] at hc
            cases h3 : tryFmt (matchYMD '-') s with
            | some r3 =>
              rw [h3, Option.some_orElse] at hc
              exact tryFmt_some_shape (h3.trans hc)
            | none =>
              rw [h3, Option.none_orElse] at hc
              exact tryFmt_some_shape hc
      obtain ⟨y, m, d, hv, rfl⟩ := hshape
      exact normalize_strftime_fixed hv

/-- Witness for C9: the idempotence clause applied to the slash scenario
date. -/
theorem C9_date_normalizer_idempotent_witness :
    CourtRecordParser.normalize_date (str (r"2024-03-15")) = some (str (r"2024-03-15")) :=
  C9_date_normalizer_idempotent.1 (str (r"03/15/2024")) (str (r"2024-03-15")) (by decide)

/-- Counterexample to C4 as stated: on a five-cell events row whose file
date is empty and whose file type is Motion, the claimed iff requires an
Event to be emitted, but Event construction fails validation (file_date
receives None for a required str field) and the whole parse returns
absence, so no Event is emitted. -/
theorem C4_event_row_iff_counterexample :
    CourtRecordParser.extract_events eventBadRowDoc =
      .error (r"Event.file_date: input should be a valid string")
  ∧ CourtRecordParser.parse_case_detail eventBadRowDoc none = none :=
  ⟨by decide, by decide⟩

/-- C4 as amended: on an events-table row with row role and at least five
cells, a non-empty file date yields an Event with the date normalized,
has_documents reflecting a hyperlink in cell 4, and blank filed_by and
comment stored as absent; a row with empty date and empty type is
skipped; but a row with empty date and non-empty type makes Event
construction fail validation, so no Event is emitted and the whole parse
returns absence; the concrete scenario row yields the claimed Event. -/
theorem C4_event_row_amended :
    (∀ (doc : DetailDoc) (dv : DivWithTable) (t : HtmlTable) (rows : List Row) (r : Row)
      (c0 c1 c2 c3 c4 : Cell) (rest : List Cell),
      doc.eventsDiv = some dv → dv.table = some t → t.tbody = some rows →
      dataRows rows = [r] → r.tds = c0 :: c1 :: c2 :: c3 :: c4 :: rest →
      ((pytrim c0.text ≠ [] → ∃ fd,
          CourtRecordParser.normalize_date (pytrim c0.text) = some fd ∧
          CourtRecordParser.extract_events doc =
            .ok [⟨fd, pytrim c1.text,
              if (pytrim c2.text).isEmpty then none else some (pytrim c2.text),
              if (pytrim c3.text).isEmpty then none else some (pytrim c3.text),
              c4.hasLink⟩])
      ∧ (pytrim c0.text = [] → pytrim c1.text = [] →
          CourtRecordParser.extract_events doc = .ok [])
      ∧ (pytrim c0.text = [] → pytrim c1.text ≠ [] →
          (∀ l, CourtRecordParser.extract_events doc ≠ .ok l)
        ∧ ∀ cn, CourtRecordParser.parse_case_detail doc cn = none)))
  ∧ CourtRecordParser.extract_events eventsScenarioDoc =
      .ok [⟨str (r"2024-02-15"), str (r"Motion"), some (str (r"Jane Doe")),
        some (str (r"Request for continuance")), true⟩] := by
  constructor
  · intro doc dv t rows r c0 c1 c2 c3 c4 rest h1 h2 h3 h4 hcells
    have hunfold : CourtRecordParser.extract_events doc =
        (CourtRecordParser.eventRowStep [] r >>= pure) := by
      simp only [CourtRecordParser.extract_events, h1, h2, h3, h4, List.foldlM_cons,
        List.foldlM_nil]
    obtain ⟨role, tds⟩ := r
    simp only at hcells
    subst hcells
    refine ⟨?_, ?_, ?_⟩
    · intro hne
      refine ⟨(tryFmt (matchMDY '/') (pytrim c0.text) <|>
        tryFmt (matchMDY '-') (pytrim c0.text) <|>
        tryFmt (matchYMD '-') (pytrim c0.text) <|>
        tryFmt (matchYMD '/') (pytrim c0.text)).getD (pytrim c0.text), ?_, ?_⟩
      · simp [CourtRecordParser.normalize_date, isEmpty_false_of_ne_nil hne]
      · rw [hunfold]
        simp [CourtRecordParser.eventRowStep, isEmpty_false_of_ne_nil hne,
          CourtRecordParser.normalize_date, mkEvent, exceptBind_ok]
    · intro hd0 hd1
      rw [hunfold]
      simp [CourtRecordParser.eventRowStep, hd0, hd1]
    · intro hd0 hd1
      have herr : CourtRecordParser.extract_events doc =
          .error (r"Event.file_date: input should be a valid string") := by
        rw [hunfold]
        simp [CourtRecordParser.eventRowStep, hd0, isEmpty_false_of_ne_nil hd1,
          CourtRecordParser.normalize_date, mkEvent, exceptBind_error]
      constructor
      · intro l h
        rw [herr] at h
        cases h
      · intro cn
        cases hP : CourtRecordParser.extract_parties doc with
        | error e =>
          have hpipe : CourtRecordParser.parse_case_detailE doc cn = .error e := by
            simp only [CourtRecordParser.parse_case_detailE]
            rw [hP, exceptBind_error]
          simp [CourtRecordParser.parse_case_detail, hpipe]
        | ok ps =>
          have hpipe : CourtRecordParser.parse_case_detailE doc cn =
              .error (r"Event.file_date: input should be a valid string") := by
            simp only [CourtRecordParser.parse_case_detailE]
            rw [hP, exceptBind_ok, herr, exceptBind_error]
          simp [CourtRecordParser.parse_case_detail, hpipe]
  · decide

/-- Witness for the amended C4: the skip clause applied to the blank row
document. -/
theorem C4_event_row_amended_witness :
    CourtRecordParser.extract_events eventsBlankRowDoc = .ok [] :=
  ((C4_event_row_amended.1 eventsBlankRowDoc
    ⟨some ⟨some [dataRow [tdCell (r""), tdCell (r""), tdCell (r""), tdCell (r""),
      tdCell (r"")]]⟩⟩
    ⟨some [dataRow [tdCell (r""), tdCell (r""), tdCell (r""), tdCell (r""), tdCell (r"")]]⟩
    [dataRow [tdCell (r""), tdCell (r""), tdCell (r""), tdCell (r""), tdCell (r"")]]
    (dataRow [tdCell (r""), tdCell (r""), tdCell (r""), tdCell (r""), tdCell (r"")])
    (tdCell (r"")) (tdCell (r"")) (tdCell (r"")) (tdCell (r"")) (tdCell (r"")) []
    rfl rfl rfl (by decide) rfl).2.1 (by decide) (by decide))

/-- Counterexample to C6 as stated: on a detail document missing the
parties region (and also missing the case-number heading and the info
region), the extractor does not return a CaseDetail with an empty parties
list; record validation rejects the absent scalar fields and the whole
parse returns absence. -/
theorem C6_missing_region_counterexample :
    captionOnlyDoc.partiesDiv = none
  ∧ CourtRecordParser.parse_case_detail captionOnlyDoc none = none :=
  ⟨rfl, by decide⟩

/-- C6 as amended: structural absence of a list source — a missing region
div, a region div whose table is missing, a table whose tbody is missing,
or for attorneys fewer than two tables in the parties region — yields the
empty corresponding collection; and whenever record validation succeeds —
a case number is available, the caption is present, all four header-info
fields were extracted, and the events extraction raises no validation
error — a document whose parties list source is absent in any of these
ways parses to a CaseDetail whose parties list is empty, never a missing
list field and never absence of the whole record. -/
theorem C6_missing_region_amended :
    (∀ doc : DetailDoc, doc.partiesDiv = none →
      CourtRecordParser.extract_parties doc = .ok []
      ∧ CourtRecordParser.extract_attorneys doc = [])
  ∧ (∀ (doc : DetailDoc) (pd : PartiesDiv), doc.partiesDiv = some pd →
      pd.tables.head? = none → CourtRecordParser.extract_parties doc = .ok [])
  ∧ (∀ (doc : DetailDoc) (pd : PartiesDiv) (t : HtmlTable), doc.partiesDiv = some pd →
      pd.tables.head? = some t → t.tbody = none →
      CourtRecordParser.extract_parties doc = .ok [])
  ∧ (∀ (doc : DetailDoc) (pd : PartiesDiv), doc.partiesDiv = some pd →
      pd.tables.length < 2 → CourtRecordParser.extract_attorneys doc = [])
  ∧ (∀ (doc : DetailDoc) (pd : PartiesDiv) (t0 t1 : HtmlTable) (rest : List HtmlTable),
      doc.partiesDiv = some pd → pd.tables = t0 :: t1 :: rest → t1.tbody = none →
      CourtRecordParser.extract_attorneys doc = [])
  ∧ (∀ doc : DetailDoc, doc.eventsDiv = none → CourtRecordParser.extract_events doc = .ok [])
  ∧ (∀ (doc : DetailDoc) (dv : DivWithTable), doc.eventsDiv = some dv → dv.table = none →
      CourtRecordParser.extract_events doc = .ok [])
  ∧ (∀ (doc : DetailDoc) (dv : DivWithTable) (t : HtmlTable), doc.eventsDiv = some dv →
      dv.table = some t → t.tbody = none → CourtRecordParser.extract_events doc = .ok [])
  ∧ (∀ doc : DetailDoc, doc.hearingsDiv = none → CourtRecordParser.extract_hearings doc = [])
  ∧ (∀ (doc : DetailDoc) (dv : DivWithTable), doc.hearingsDiv = some dv → dv.table = none →
      CourtRecordParser.extract_hearings doc = [])
  ∧ (∀ (doc : DetailDoc) (dv : DivWithTable) (t : HtmlTable), doc.hearingsDiv = some dv →
      dv.table = some t → t.tbody = none → CourtRecordParser.extract_hearings doc = [])
  ∧ (∀ (doc : DetailDoc) (cn : Option Str) (n cap fd ct st loc : Str) (evs : List Event),
      (doc.partiesDiv = none ∨ (∃ pd, doc.partiesDiv = some pd ∧
        (pd.tables.head? = none ∨ ∃ t, pd.tables.head? = some t ∧ t.tbody = none))) →
      CourtRecordParser.pyOrStr cn (CourtRecordParser.extract_case_number_from_header doc) =
        some n →
      CourtRecordParser.extract_case_caption doc = some cap →
      CourtRecordParser.extract_case_info_from_detail doc = ⟨some fd, some ct, some st, some loc⟩ →
      CourtRecordParser.extract_events doc = .ok evs →
      CourtRecordParser.parse_case_detail doc cn =
        some ⟨n, cap, fd, ct, st, loc, [], CourtRecordParser.extract_attorneys doc,
          CourtRecordParser.extract_hearings doc, evs, none⟩) := by
  refine ⟨?_, ?_, ?_, ?_, ?_, ?_, ?_, ?_, ?_, ?_, ?_, ?_⟩
  · intro doc h
    constructor
    · simp [CourtRecordParser.extract_parties, h]
    · simp [CourtRecordParser.extract_attorneys, h]
  · intro doc pd h1 h2
    simp [CourtRecordParser.extract_parties, h1, h2]
  · intro doc pd t h1 h2 h3
    simp [CourtRecordParser.extract_parties, h1, h2, h3]
  · intro doc pd h1 hlen
    rcases htab : pd.tables with _ | ⟨t0, _ | ⟨t1, rest⟩⟩
    · simp [CourtRecordParser.extract_attorneys, h1, htab]
    · simp [CourtRecordParser.extract_attorneys, h1, htab]
    · rw [htab] at hlen
      simp only [List.length_cons] at hlen
      omega
  · intro doc pd t0 t1 rest h1 h2 h3
    simp [CourtRecordParser.extract_attorneys, h1, h2, h3]
  · intro doc h
    simp [CourtRecordParser.extract_events, h]
  · intro doc dv h1 h2
    simp [CourtRecordParser.extract_events, h1, h2]
  · intro doc dv t h1 h2 h3
    simp [CourtRecordParser.extract_events, h1, h2, h3]
  · intro doc h
    simp [CourtRecordParser.extract_hearings, h]
  · intro doc dv h1 h2
    simp [CourtRecordParser.extract_hearings, h1, h2]
  · intro doc dv t h1 h2 h3
    simp [CourtRecordParser.extract_hearings, h1, h2, h3]
  · intro doc cn n cap fd ct st loc evs habs h2 h3 h4 h5
    have hparties : CourtRecordParser.extract_parties doc = .ok [] := by
      rcases habs with h1 | ⟨pd, h1, hin⟩
      · simp [CourtRecordParser.extract_parties, h1]
      · rcases hin with h2t | ⟨t, h2t, h3t⟩
        · simp [CourtRecordParser.extract_parties, h1, h2t]
        · simp [CourtRecordParser.extract_parties, h1, h2t, h3t]
    have hpipe : CourtRecordParser.parse_case_detailE doc cn =
        .ok ⟨n, cap, fd, ct, st, loc, [], CourtRecordParser.extract_attorneys doc,
          CourtRecordParser.extract_hearings doc, evs, none⟩ := by
      simp only [CourtRecordParser.parse_case_detailE]
      rw [hparties, exceptBind_ok, h5, exceptBind_ok, h2, h3, h4]
      rfl
    simp [CourtRecordParser.parse_case_detail, hpipe]

/-- Witness for the amended C6: the concrete document whose parties region
is present but whose only parties table lacks a tbody, with validating
header fields, parses to a CaseDetail with an empty parties list. -/
theorem C6_missing_region_amended_witness :
    CourtRecordParser.parse_case_detail partiesNoTbodyDoc none =
      some ⟨str (r"21CR012345"), str (r"People vs. Smith"), str (r"2021-05-15"),
        str (r"Criminal"), str (r"Active"), str (r"Hall of Justice"), [],
        CourtRecordParser.extract_attorneys partiesNoTbodyDoc,
        CourtRecordParser.extract_hearings partiesNoTbodyDoc, [], none⟩ :=
  C6_missing_region_amended.2.2.2.2.2.2.2.2.2.2.2 partiesNoTbodyDoc none
    (str (r"21CR012345")) (str (r"People vs. Smith")) (str (r"2021-05-15"))
    (str (r"Criminal")) (str (r"Active")) (str (r"Hall of Justice")) []
    (Or.inr ⟨⟨[⟨none⟩]⟩, rfl, Or.inr ⟨⟨none⟩, rfl, rfl⟩⟩)
    (by decide) (by decide) (by decide) (by decide)

/-- Witness for C8: the first conjunct applied to the concrete scenario
row. -/
theorem C8_summary_fields_trimmed_unnormalized_witness :
    CourtRecordParser.extract_case_from_datatable_row
      (dataRow [tdCell (r""), tdCell (r"21CR012345"), tdCell (r"People vs. Smith"),
        tdCell (r"Active"), tdCell (r"Criminal"), tdCell (r"05/15/2021")]) =
    some ⟨pytrim (str (r"21CR012345")), some (pytrim (str (r"05/15/2021"))),
      some (pytrim (str (r"Criminal"))), some (pytrim (str (r"Active"))),
      CourtRecordParser.extract_count (pytrim (str (r"People vs. Smith"))),
      some ⟨false, none⟩⟩ :=
  C8_summary_fields_trimmed_unnormalized.1
    (dataRow [tdCell (r""), tdCell (r"21CR012345"), tdCell (r"People vs. Smith"),
      tdCell (r"Active"), tdCell (r"Criminal"), tdCell (r"05/15/2021")])
    (tdCell (r"")) (tdCell (r"21CR012345")) (tdCell (r"People vs. Smith"))
    (tdCell (r"Active")) (tdCell (r"Criminal")) (tdCell (r"05/15/2021")) []
    rfl (by decide)
